import Mathlib

/-!
Shallow embedding of the CheeseBot repository.

`src/scraper.py` parses fetched HTML pages (via BeautifulSoup) into cheese
records; `src/bot.py` schedules a daily post and computes time until the next
run.  The HTML document tree is embedded as its preorder traversal: a list of
entries, each carrying the path of child indices from the root together with
the node's payload (a text node, or an element with tag name and attributes).
All BeautifulSoup operations used by the scraper (find, find_all, find_next,
next_sibling, get_text, attribute access) become list operations over that
preorder list.  Machine-level effects (network fetches, randomness) are passed
in as explicit oracles.
-/

/-- Models Python `str.strip()` (whitespace removed from both ends). -/
def pyStrip (s : String) : String :=
  String.mk (((s.toList.dropWhile Char.isWhitespace).reverse.dropWhile Char.isWhitespace).reverse)

/-- Models Python `str.lstrip(':')`. -/
def pyLstripColon (s : String) : String :=
  String.mk (s.toList.dropWhile (fun c => c == ':'))

/-- Models Python `s.startswith(pre)`. -/
def strStartsWith (s pre : String) : Bool :=
  pre.toList.isPrefixOf s.toList

def infixAux (sub : List Char) : List Char → Bool
  | [] => sub.isEmpty
  | c :: rest => sub.isPrefixOf (c :: rest) || infixAux sub rest

/-- Models Python `sub in s` (substring containment). -/
def strContains (s sub : String) : Bool :=
  infixAux sub.toList s.toList

/-- Models Python `str.lower()`. -/
def lowerStr (s : String) : String :=
  String.mk (s.toList.map Char.toLower)

/-- Models Python `" ".join(l)`. -/
def joinSpace : List String → String
  | [] => ""
  | [s] => s
  | s :: rest => s ++ " " ++ joinSpace rest

/-- Models Python `a or b` on optional strings (`None` and `""` are falsy). -/
def pyOr (a b : Option String) : Option String :=
  match a with
  | some s => if s = "" then b else some s
  | none => b

/-- Models Python `a or d` where the fallback `d` is a plain string. -/
def pyOrStr (a : Option String) (d : String) : String :=
  match a with
  | some s => if s = "" then d else s
  | none => d

/-- Python truthiness of an optional string. -/
def pyTruthyO : Option String → Bool
  | some s => !(s == "")
  | none => false

/-- Models Python `s.split(":")` on the character list of `s`. -/
def splitCols : List Char → List (List Char)
  | [] => [[]]
  | c :: rest =>
    if c == ':' then [] :: splitCols rest
    else
      match splitCols rest with
      | [] => [[c]]
      | g :: gs => (c :: g) :: gs

def digitsToNat (cs : List Char) : Option Nat :=
  if cs.isEmpty then none
  else if cs.all Char.isDigit then
    some (cs.foldl (fun a c => a * 10 + (c.toNat - 48)) 0)
  else none

/-- Models Python `int(s)`: surrounding whitespace is ignored, an optional
leading sign is accepted, and the remainder must be a nonempty digit string
(digit-group underscores, a rarely used Python extension, are not modelled). -/
def pyInt (s : String) : Option Int :=
  match (pyStrip s).toList with
  | '+' :: rest => (digitsToNat rest).map (fun n => (n : Int))
  | '-' :: rest => (digitsToNat rest).map (fun n => -(n : Int))
  | rest => (digitsToNat rest).map (fun n => (n : Int))

/-- `BASE_URL` from scraper.py line 8. -/
def BASE_URL : String := "https://www.cheese.com"

/-- Models `urllib.parse.urljoin(base, rel)` for the shapes arising here
(the base `BASE_URL` has an empty path). -/
def urljoin (base rel : String) : String :=
  if strStartsWith rel "http://" || strStartsWith rel "https://" then rel
  else if strStartsWith rel "//" then "https:" ++ rel
  else if strStartsWith rel "/" then base ++ rel
  else if rel = "" then base
  else base ++ "/" ++ rel

/-- `absolute_url` from scraper.py lines 10-14 (`if not url: return None`). -/
def absolute_url (url : Option String) : Option String :=
  match url with
  | none => none
  | some s => if s = "" then none else some (urljoin BASE_URL s)

/-- Payload of a DOM node: a `NavigableString` or a tag with attributes. -/
inductive NodeKind where
  | text (s : String)
  | elem (tagName : String) (tagAttrs : List (String × String))
deriving DecidableEq

/-- One node of a parsed HTML document, identified by its path of child
indices from the document root. -/
structure DomEntry where
  path : List Nat
  kind : NodeKind
deriving DecidableEq

/-- A parsed document: its nodes listed in preorder (document order). -/
abbrev HtmlDoc := List DomEntry

def DomEntry.isElem (e : DomEntry) : Bool :=
  match e.kind with
  | .elem _ _ => true
  | .text _ => false

def DomEntry.isNamed (e : DomEntry) (nm : String) : Bool :=
  match e.kind with
  | .elem n _ => n == nm
  | .text _ => false

/-- Models `tag.get(k)` / `tag[k]` (BeautifulSoup keeps the first duplicate). -/
def DomEntry.attr (e : DomEntry) (k : String) : Option String :=
  match e.kind with
  | .elem _ ats => (ats.find? (fun kv => kv.1 == k)).map (fun kv => kv.2)
  | .text _ => none

def DomEntry.textOf (e : DomEntry) : Option String :=
  match e.kind with
  | .text s => some s
  | .elem _ _ => none

/-- `p` is a proper prefix of `q`: the node at `q` is a strict descendant of
the node at `p`. -/
def propPre (p q : List Nat) : Bool :=
  p.isPrefixOf q && !(p == q)

/-- `q` is a later sibling of `p` (same parent, larger child index). -/
def isSibAfter (p q : List Nat) : Bool :=
  decide (p ≠ [] ∧ q ≠ [] ∧ p.dropLast = q.dropLast ∧ p.getLastD 0 < q.getLastD 0)

/-- All strict descendants of the node at `p`, in document order. -/
def strictDescendants (doc : HtmlDoc) (p : List Nat) : List DomEntry :=
  doc.filter (fun e => propPre p e.path)

/-- The strings of all text nodes below `p`, in document order. -/
def subtreeTexts (doc : HtmlDoc) (p : List Nat) : List String :=
  (strictDescendants doc p).filterMap DomEntry.textOf

/-- Models `tag.get_text(strip=True)`: each descendant string stripped,
empty pieces skipped, and the rest concatenated. -/
def entryTextStrip (doc : HtmlDoc) (p : List Nat) : String :=
  String.join (((subtreeTexts doc p).map pyStrip).filter (fun s => !(s == "")))

/-- Models `tag.get_text()` (no stripping). -/
def entryTextRaw (doc : HtmlDoc) (p : List Nat) : String :=
  String.join (subtreeTexts doc p)

/-- All entries strictly after the node at `p` in document order
(includes that node's own descendants, as BeautifulSoup's `.next_elements`
does). -/
def afterPre (doc : HtmlDoc) (p : List Nat) : List DomEntry :=
  ((doc.dropWhile (fun e => !(e.path == p))).drop 1)

/-- Models `tag.find_next('a')`. -/
def findNextA (doc : HtmlDoc) (p : List Nat) : Option DomEntry :=
  (afterPre doc p).find? (fun e => e.isNamed "a")

/-- Models `soup.find(name)`: first element with the given tag name. -/
def firstNamed (doc : HtmlDoc) (nm : String) : Option DomEntry :=
  doc.find? (fun e => e.isNamed nm)

/-- The immediate children of the node at `p`, in order. -/
def childEntries (doc : HtmlDoc) (p : List Nat) : List DomEntry :=
  doc.filter (fun e => decide (e.path.dropLast = p ∧ e.path.length = p.length + 1))

/-- Models BeautifulSoup's `tag.string`: the string of the unique child if it
is a text node, recursing through a unique element child; `None` otherwise.
The fuel argument (instantiated with the document size) bounds the descent. -/
def tagString (doc : HtmlDoc) : Nat → List Nat → Option String
  | 0, _ => none
  | fuel + 1, p =>
    match childEntries doc p with
    | [c] =>
      match c.kind with
      | .text s => some s
      | .elem _ _ => tagString doc fuel c.path
    | _ => none

/-- Splits an attribute value on whitespace (how BeautifulSoup turns the
`class` attribute into a class list). -/
def splitWsAux : List Char → List Char → List String
  | [], acc => if acc.isEmpty then [] else [String.mk acc.reverse]
  | c :: cs, acc =>
    if c.isWhitespace then
      (if acc.isEmpty then splitWsAux cs [] else String.mk acc.reverse :: splitWsAux cs [])
    else splitWsAux cs (c :: acc)

def splitWs (s : String) : List String :=
  splitWsAux s.toList []

/-- Models BeautifulSoup's `class_=cls` matching: `cls` is one of the
whitespace-separated classes of the tag. -/
def hasClass (e : DomEntry) (cls : String) : Bool :=
  match e.attr "class" with
  | some v => (splitWs v).contains cls
  | none => false

/-- Models `class_=l` matching with a list: some class of the tag is in `l`. -/
def hasClassIn (e : DomEntry) (l : List String) : Bool :=
  match e.attr "class" with
  | some v => (splitWs v).any (fun c => l.contains c)
  | none => false

/-! ## Extraction of a cheese record (`get_cheese_details`, scraper.py 48-200) -/

/-- Models `list(dict.fromkeys(l))`: stable deduplication, first occurrence
wins.  `seen` accumulates the keys already emitted. -/
def dedupKeysAux (seen : List String) : List String → List String
  | [] => []
  | x :: xs =>
    if x ∈ seen then dedupKeysAux seen xs
    else x :: dedupKeysAux (x :: seen) xs

def dedupKeys (l : List String) : List String :=
  dedupKeysAux [] l

/-- Index of the first occurrence of `a` in `l` (length of `l` if absent). -/
def firstIdx : List String → String → Nat
  | [], _ => 0
  | x :: xs, a => if x = a then 0 else firstIdx xs a + 1

/-- The structured fields of a cheese record (`field_mapping` values,
scraper.py 97-109). -/
structure CheeseFields where
  made_from : Option String
  country_of_origin : Option String
  region : Option String
  family : Option String
  type : Option String
  texture : Option String
  colour : Option String
  flavour : Option String
  aroma : Option String
  vegetarian : Option String
deriving DecidableEq

def noneFields : CheeseFields :=
  { made_from := none, country_of_origin := none, region := none,
    family := none, type := none, texture := none, colour := none,
    flavour := none, aroma := none, vegetarian := none }

/-- The dictionary returned by `get_cheese_details`. -/
structure CheeseRecord where
  source_url : String
  name : String
  image_url : Option String
  about : String
  about_images : List String
  fields : CheeseFields
deriving DecidableEq

/-- `field_mapping` from scraper.py 97-109, in insertion (iteration) order. -/
def fieldMapping : List (String × String) :=
  [("Made from", "made_from"), ("Country of origin", "country_of_origin"),
   ("Region", "region"), ("Family", "family"), ("Type", "type"),
   ("Texture", "texture"), ("Colour", "colour"), ("Flavor", "flavour"),
   ("Flavour", "flavour"), ("Aroma", "aroma"), ("Vegetarian", "vegetarian")]

/-- `data[key] = v` for the field dictionary. -/
def setField (fs : CheeseFields) (key : String) (v : Option String) : CheeseFields :=
  if key = "made_from" then { fs with made_from := v }
  else if key = "country_of_origin" then { fs with country_of_origin := v }
  else if key = "region" then { fs with region := v }
  else if key = "family" then { fs with family := v }
  else if key = "type" then { fs with type := v }
  else if key = "texture" then { fs with texture := v }
  else if key = "colour" then { fs with colour := v }
  else if key = "flavour" then { fs with flavour := v }
  else if key = "aroma" then { fs with aroma := v }
  else if key = "vegetarian" then { fs with vegetarian := v }
  else fs

/-- scraper.py 114-115: first span/strong/b whose stripped text starts with
the label. -/
def findLabelTag (doc : HtmlDoc) (label : String) : Option DomEntry :=
  doc.find? (fun e =>
    (e.isNamed "span" || e.isNamed "strong" || e.isNamed "b") &&
    strStartsWith (entryTextStrip doc e.path) label)

/-- scraper.py 122-131: value from the label tag's immediate next sibling
(a `NavigableString` is stripped and a leading colon removed; a tag
contributes its stripped text likewise). -/
def siblingValue (doc : HtmlDoc) (p : List Nat) : Option String :=
  match (doc.filter (fun e => isSibAfter p e.path)).head? with
  | some e =>
    match e.kind with
    | .text s =>
      let v := pyStrip (pyLstripColon (pyStrip s))
      if v = "" then none else some v
    | .elem _ _ =>
      let t := pyStrip (pyLstripColon (entryTextStrip doc e.path))
      if t = "" then none else some t
  | none => none

/-- scraper.py 111-131: the value stored for one label (or `None`). -/
def fieldValue (doc : HtmlDoc) (label : String) : Option String :=
  match findLabelTag doc label with
  | none => none
  | some e =>
    match findNextA doc e.path with
    | some a =>
      if entryTextStrip doc a.path = "" then siblingValue doc e.path
      else some (entryTextStrip doc a.path)
    | none => siblingValue doc e.path

/-- The full `for label, key in field_mapping.items()` loop: every iteration
first resets `data[key]` to `None` and then stores the found value. -/
def extractFields (doc : HtmlDoc) : CheeseFields :=
  fieldMapping.foldl (fun fs lk => setField fs lk.2 (fieldValue doc lk.1)) noneFields

/-- scraper.py 80: `soup.find('meta', property='og:image')`. -/
def findOgMeta (doc : HtmlDoc) : Option DomEntry :=
  doc.find? (fun e => e.isNamed "meta" && decide (e.attr "property" = some "og:image"))

/-- scraper.py 90-92: `soup.find('img')` and its `src`/`data-src`. -/
def globalFirstImgSrc (doc : HtmlDoc) : Option String :=
  match doc.find? (fun e => e.isNamed "img") with
  | some img => pyOr (img.attr "src") (img.attr "data-src")
  | none => none

/-- scraper.py 84-92: thumbnail-container image, else first image. -/
def fallbackRawImg (doc : HtmlDoc) : Option String :=
  match doc.find? (fun e => e.isNamed "div" && hasClass e "thumb") with
  | some thumb =>
    match (strictDescendants doc thumb.path).find? (fun e => e.isNamed "img") with
    | some img => pyOr (img.attr "src") (img.attr "data-src")
    | none => globalFirstImgSrc doc
  | none => globalFirstImgSrc doc

/-- scraper.py 79-92: raw image URL (og:image preferred). -/
def rawImageUrl (doc : HtmlDoc) : Option String :=
  match findOgMeta doc with
  | some og =>
    match og.attr "content" with
    | some c => if c = "" then fallbackRawImg doc else some c
    | none => fallbackRawImg doc
  | none => fallbackRawImg doc

/-- scraper.py 94: `data['image_url'] = absolute_url(img_url)`. -/
def extractImage (doc : HtmlDoc) : Option String :=
  absolute_url (rawImageUrl doc)

/-- scraper.py 151-154 and 168-171: image URLs collected below a node
(`find_all('img')`, truthy `src or data-src`, made absolute). -/
def imgSrcs (doc : HtmlDoc) (p : List Nat) : List DomEntry → List String
  | [] => []
  | e :: rest =>
    if e.isNamed "img" then
      match pyOr (e.attr "src") (e.attr "data-src") with
      | some s =>
        if s = "" then imgSrcs doc p rest
        else urljoin BASE_URL s :: imgSrcs doc p rest
      | none => imgSrcs doc p rest
    else imgSrcs doc p rest

def imgSrcsBelow (doc : HtmlDoc) (p : List Nat) : List String :=
  imgSrcs doc p (strictDescendants doc p)

/-- scraper.py 139-143: first h2/h3 whose lowered text contains
"what is" or "about". -/
def aboutHeading (doc : HtmlDoc) : Option DomEntry :=
  doc.find? (fun e =>
    (e.isNamed "h2" || e.isNamed "h3") &&
    (strContains (lowerStr (entryTextRaw doc e.path)) "what is" ||
     strContains (lowerStr (entryTextRaw doc e.path)) "about"))

/-- scraper.py 145-160: walk the element siblings following the heading, up
to (excluding) the next h2/h3; collect images below each visited node and the
stripped texts of nonempty `p` siblings. -/
def h2Scan (doc : HtmlDoc) (p : List Nat) : Option String × List String :=
  let region :=
    ((doc.filter (fun e => isSibAfter p e.path && e.isElem)).takeWhile
      (fun e => !(e.isNamed "h2" || e.isNamed "h3")))
  let imgs := region.flatMap (fun e => imgSrcsBelow doc e.path)
  let ps := region.filterMap (fun e =>
    if e.isNamed "p" && !(entryTextStrip doc e.path == "") then
      some (entryTextStrip doc e.path)
    else none)
  (if ps.isEmpty then none else some (pyStrip (joinSpace ps)), imgs)

/-- scraper.py 164: the description containers. -/
def aboutContainers (doc : HtmlDoc) : List DomEntry :=
  doc.filter (fun e =>
    e.isNamed "div" && hasClassIn e ["wiki-content", "description", "content"])

/-- scraper.py 163-182: scan containers in order; each visited container
contributes its images; stop at the first container with nonempty paragraph
text, else with substantial (> 20 characters) stripped text. -/
def containerScan (doc : HtmlDoc) : List DomEntry → List String → Option String × List String
  | [], imgs => (none, imgs)
  | c :: rest, imgs =>
    let imgs2 := imgs ++ imgSrcsBelow doc c.path
    let ps := (strictDescendants doc c.path).filterMap (fun e =>
      if e.isNamed "p" && !(entryTextStrip doc e.path == "") then
        some (entryTextStrip doc e.path)
      else none)
    if !ps.isEmpty then (some (joinSpace ps), imgs2)
    else
      let t := entryTextStrip doc c.path
      if t ≠ "" ∧ 20 < t.length then (some t, imgs2)
      else containerScan doc rest imgs2

/-- scraper.py 185-187: final fallback, the first five paragraphs (sliced
before the nonempty-text filter). -/
def finalParas (doc : HtmlDoc) : Option String :=
  let ps := ((doc.filter (fun e => e.isNamed "p")).take 5).filterMap (fun e =>
    if entryTextStrip doc e.path = "" then none else some (entryTextStrip doc e.path))
  if ps.isEmpty then none else some (joinSpace ps)

/-- scraper.py 133-187: the about text (still optional here) and the image
URLs collected along the way, threaded exactly as the mutable
`about_text` / `about_images` pair is. -/
def extractAbout (doc : HtmlDoc) : Option String × List String :=
  let s1 :=
    match aboutHeading doc with
    | some e => h2Scan doc e.path
    | none => (none, [])
  let s2 := if pyTruthyO s1.1 then s1 else containerScan doc (aboutContainers doc) s1.2
  if pyTruthyO s2.1 then s2 else (finalParas doc, s2.2)

/-- scraper.py 191-195: drop falsy entries, deduplicate keeping first
occurrences, and prepend the primary image only when not already present. -/
def buildAboutImages (imageUrl : Option String) (collected : List String) : List String :=
  match imageUrl with
  | some u =>
    if u = "" then dedupKeys (collected.filter (fun s => !(s == "")))
    else if u ∈ dedupKeys (collected.filter (fun s => !(s == ""))) then
      dedupKeys (collected.filter (fun s => !(s == "")))
    else u :: dedupKeys (collected.filter (fun s => !(s == "")))
  | none => dedupKeys (collected.filter (fun s => !(s == "")))

/-- scraper.py 69-76: cheese name from h1, else title, else sentinel.
`soup.title.string` is `None` when the title has no unique string, and the
following `.strip()` then raises (`.error`), uncaught by the scraper. -/
def extractName (doc : HtmlDoc) : Except Unit String :=
  match firstNamed doc "h1" with
  | some e => .ok (entryTextStrip doc e.path)
  | none =>
    match firstNamed doc "title" with
    | some t =>
      match tagString doc doc.length t.path with
      | some s => .ok (pyStrip s)
      | none => .error ()
    | none => .ok "Unknown Cheese"

/-- `get_cheese_details(cheese_url)` (scraper.py 48-200) applied to the
already-fetched document.  An uncaught in-extraction exception is `.error`. -/
def get_cheese_details (doc : HtmlDoc) (url : String) : Except Unit CheeseRecord :=
  match extractName doc with
  | .error e => .error e
  | .ok nm =>
    .ok { source_url := url, name := nm, image_url := extractImage doc,
          about := pyOrStr (extractAbout doc).1 "No description available.",
          about_images := buildAboutImages (extractImage doc) (extractAbout doc).2,
          fields := extractFields doc }

/-! ## Random cheese (`get_random_cheese`, scraper.py 202-269) -/

/-- The alphabetical listing page for one letter, abstracted as the lists of
hrefs that the five CSS selectors of scraper.py 237-243 return (in order). -/
abbrev ListingPage := List (List String)

/-- The network/page oracle: fetching a letter's listing page may fail
(`requests.RequestException`), and fetching a cheese page yields its parsed
document (or a fetch failure). -/
structure ScrapeWorld where
  listing : Char → Except Unit ListingPage
  pageDoc : String → Except Unit HtmlDoc

/-- scraper.py 245-249: the first selector with at least one link wins. -/
def selectorLinks (pg : ListingPage) : List String :=
  (pg.find? (fun l => !l.isEmpty)).getD []

/-- scraper.py 252: keep hrefs containing "/cheese/" or starting with "/". -/
def validLinksOf (pg : ListingPage) : List String :=
  (selectorLinks pg).filter (fun l => strContains l "/cheese/" || strStartsWith l "/")

def pyLetters : List Char :=
  "abcdefghijklmnopqrstuvwxyz".toList

/-- scraper.py 220-227: pick a random untried letter (the tried set resets
once exhausted); `r` is the drawn random number used as an index. -/
def nextLetter (attempted : List Char) (r : Nat) : Char :=
  let avail0 := pyLetters.filter (fun c => !(attempted.contains c))
  let avail := if avail0.isEmpty then pyLetters else avail0
  avail.getD (r % avail.length) 'a'

def resetAttempted (attempted : List Char) : List Char :=
  if (pyLetters.filter (fun c => !(attempted.contains c))).isEmpty then []
  else attempted

/-- The attempt loop of `get_random_cheese` (scraper.py 218-267).  `rnd` is
the stream of random draws (used modulo the choice-list length), `fuel` the
remaining iterations of `for attempt in range(max_retries)`, and `used`
counts the attempts performed.  Fetch failures and any exception raised while
extracting the selected cheese page are swallowed and the loop continues
(scraper.py 262-267); running out of fuel models the final
`raise ValueError(...)` of line 269. -/
def get_random_cheese_aux (w : ScrapeWorld) (rnd : Nat → Nat) :
    Nat → List Char → Nat → Nat → Except Unit CheeseRecord × Nat
  | 0, _, _, used => (.error (), used)
  | fuel + 1, attempted, k, used =>
    let letter := nextLetter attempted (rnd k)
    let att2 := letter :: resetAttempted attempted
    match w.listing letter with
    | .error _ => get_random_cheese_aux w rnd fuel att2 (k + 1) (used + 1)
    | .ok pg =>
      if (validLinksOf pg).isEmpty then
        get_random_cheese_aux w rnd fuel att2 (k + 1) (used + 1)
      else
        let sel := (validLinksOf pg).getD (rnd (k + 1) % (validLinksOf pg).length) ""
        let full := urljoin BASE_URL sel
        match w.pageDoc full with
        | .error _ => get_random_cheese_aux w rnd fuel att2 (k + 2) (used + 1)
        | .ok d =>
          match get_cheese_details d full with
          | .ok r => (.ok r, used + 1)
          | .error _ => get_random_cheese_aux w rnd fuel att2 (k + 2) (used + 1)

/-- `get_random_cheese(max_retries)` (default 15), returning the outcome
together with the number of attempts performed. -/
def get_random_cheese (w : ScrapeWorld) (rnd : Nat → Nat) (max_retries : Nat) :
    Except Unit CheeseRecord × Nat :=
  get_random_cheese_aux w rnd max_retries [] 0 0

/-! ## Multiple random cheeses (`get_multiple_random_cheeses`, scraper.py 272-298) -/

/-- The loop body of `get_multiple_random_cheeses`: `fetch k` is the outcome
of the k-th call to `get_random_cheese()` (failures of any kind are
swallowed, scraper.py 294-296). -/
def get_multiple_aux (fetch : Nat → Except Unit CheeseRecord) (count : Nat) :
    Nat → Nat → List CheeseRecord → List CheeseRecord
  | 0, _, acc => acc
  | fuel + 1, k, acc =>
    if count ≤ acc.length then acc
    else
      match fetch k with
      | .error _ => get_multiple_aux fetch count fuel (k + 1) acc
      | .ok c =>
        if acc.any (fun x => x.name == c.name) then
          get_multiple_aux fetch count fuel (k + 1) acc
        else
          get_multiple_aux fetch count fuel (k + 1) (acc ++ [c])

/-- `get_multiple_random_cheeses(count)`: at most `count * 3` attempts
(scraper.py 283).  `count` is taken as a natural number. -/
def get_multiple_random_cheeses (fetch : Nat → Except Unit CheeseRecord)
    (count : Nat) : List CheeseRecord :=
  get_multiple_aux fetch count (count * 3) 0 []

/-! ## Scheduler (`src/bot.py`) -/

/-- The persisted configuration (`config.json` keys used by the core). -/
structure BotConfig where
  cheese_channel : Option Nat
  cheese_time : Option String
  cheese_role_id : Option Nat
deriving DecidableEq

/-- Models `hour, minute = map(int, s.split(":"))`: succeeds exactly when the
string splits into two pieces that both parse as Python ints; any other shape
raises `ValueError` (which the callers catch). -/
def parseHM (s : String) : Option (Int × Int) :=
  match (splitCols s.toList).map (fun cs => pyInt (String.mk cs)) with
  | [some h, some m] => some (h, m)
  | _ => none

/-- `seconds_until_next_run` (bot.py 160-179).  Time is measured in integer
seconds; `now_utc` is seconds since a UTC midnight epoch, so
`now_utc / 86400 * 86400` is `datetime.combine(now_utc.date(), time(0, 0))`.
A parse failure returns `None` (bot.py 164-167); an out-of-range hour or
minute makes the `time(hour, minute)` constructor on line 173 raise an
uncaught `ValueError`, modelled as `.error`. -/
def seconds_until_next_run (cfg : BotConfig) (now_utc : Nat) : Except Unit (Option Int) :=
  match cfg.cheese_time with
  | none => .ok none
  | some s =>
    match parseHM s with
    | none => .ok none
    | some hm =>
      if 0 ≤ hm.1 ∧ hm.1 ≤ 23 ∧ 0 ≤ hm.2 ∧ hm.2 ≤ 59 then
        let midnight : Int := ((now_utc / 86400 : Nat) : Int) * 86400
        let target0 : Int := midnight + hm.1 * 3600 + hm.2 * 60 - 8 * 3600
        let target : Int := if (now_utc : Int) ≥ target0 then target0 + 86400 else target0
        .ok (some (target - (now_utc : Int)))
      else .error ()

/-- The dispatch condition of one `daily_cheese_task` tick (bot.py 184-196):
both keys configured, the stored time parses, and the current PH (UTC+8)
hour and minute equal the configured ones.  A parse exception is caught by
the surrounding `try` (bot.py 229-230) and nothing is dispatched. -/
def tickFires (cfg : BotConfig) (now_utc : Nat) : Bool :=
  match cfg.cheese_channel, cfg.cheese_time with
  | some _, some s =>
    match parseHM s with
    | some hm =>
      let now_ph := now_utc + 8 * 3600
      decide ((((now_ph / 3600) % 24 : Nat) : Int) = hm.1 ∧
              (((now_ph / 60) % 60 : Nat) : Int) = hm.2)
    | none => false
  | _, _ => false

/-- The timing behaviour of the `tasks.loop(minutes=1)` driver around
`daily_cheese_task`: `start i` is the (UTC-second) start time of the i-th
invocation.  Invocations are sequential and never overlap, and an invocation
that dispatched executes `await asyncio.sleep(65)` (bot.py 223) before
returning, so the next invocation starts at least 65 seconds later. -/
structure TickTrace (cfg : BotConfig) where
  start : Nat → Nat
  mono : ∀ i, start i < start (i + 1)
  firedSleep : ∀ i, tickFires cfg (start i) = true → start i + 65 ≤ start (i + 1)

/-! ## Concrete fixtures used by the witnesses and counterexamples -/

/-- `<span>Flavor</span><a>Mild</a>`: an American-spelling label followed by a
linked value. -/
def docC1 : HtmlDoc :=
  [⟨[0], .elem "span" []⟩, ⟨[0, 0], .text "Flavor"⟩,
   ⟨[1], .elem "a" []⟩, ⟨[1, 0], .text "Mild"⟩]

/-- `<h1>   </h1>`: a present h1 whose stripped text is empty. -/
def docC2 : HtmlDoc :=
  [⟨[0], .elem "h1" []⟩, ⟨[0, 0], .text "   "⟩]

/-- `<h1>Edam</h1>`. -/
def docW2 : HtmlDoc :=
  [⟨[0], .elem "h1" []⟩, ⟨[0, 0], .text "Edam"⟩]

def recW2 : CheeseRecord :=
  { source_url := "u", name := "Edam", image_url := none,
    about := "No description available.", about_images := [], fields := noneFields }

/-- An og:image meta whose URL also appears second among the about-section
images: `<meta property="og:image" content="/b.jpg">` followed by an
`<h2>About</h2>` section containing `<img src="/a.jpg"><img src="/b.jpg">`. -/
def docC6 : HtmlDoc :=
  [⟨[0], .elem "meta" [("property", "og:image"), ("content", "/b.jpg")]⟩,
   ⟨[1], .elem "h2" []⟩, ⟨[1, 0], .text "About"⟩,
   ⟨[2], .elem "div" []⟩,
   ⟨[2, 0], .elem "img" [("src", "/a.jpg")]⟩,
   ⟨[2, 1], .elem "img" [("src", "/b.jpg")]⟩]

def recC6 : CheeseRecord :=
  { source_url := "u", name := "Unknown Cheese",
    image_url := some "https://www.cheese.com/b.jpg",
    about := "No description available.",
    about_images := ["https://www.cheese.com/a.jpg", "https://www.cheese.com/b.jpg"],
    fields := noneFields }

/-- `<meta property="og:image" content="/img/ch.jpg">`. -/
def docC8 : HtmlDoc :=
  [⟨[0], .elem "meta" [("property", "og:image"), ("content", "/img/ch.jpg")]⟩]

def recC8 : CheeseRecord :=
  { source_url := "u", name := "Unknown Cheese",
    image_url := some "https://www.cheese.com/img/ch.jpg",
    about := "No description available.",
    about_images := ["https://www.cheese.com/img/ch.jpg"], fields := noneFields }

/-- The empty document. -/
def docEmpty : HtmlDoc := []

def recEmpty : CheeseRecord :=
  { source_url := "u", name := "Unknown Cheese", image_url := none,
    about := "No description available.", about_images := [], fields := noneFields }

/-- Config with a post time of 07:00 PH. -/
def cfgC4 : BotConfig :=
  { cheese_channel := some 1, cheese_time := some "07:00", cheese_role_id := none }

/-- Config with a malformed stored time. -/
def cfgC9 : BotConfig :=
  { cheese_channel := none, cheese_time := some "ab:cd", cheese_role_id := none }

/-- Config with channel and a post time of 09:00 PH. -/
def cfgW3 : BotConfig :=
  { cheese_channel := some 1, cheese_time := some "09:00", cheese_role_id := none }

/-- A trace whose invocations land at 09:00:00 PH every day
(01:00:00 UTC = 3600 seconds past UTC midnight). -/
def trW3 : TickTrace cfgW3 :=
  { start := fun i => 3600 + 86400 * i,
    mono := by
      intro i
      show 3600 + 86400 * i < 3600 + 86400 * (i + 1)
      omega,
    firedSleep := by
      intro i _
      show 3600 + 86400 * i + 65 ≤ 3600 + 86400 * (i + 1)
      omega }

/-- A world whose 26 listing pages all fetch fine but contain no links at
all, and whose cheese pages are unreachable. -/
def wW5 : ScrapeWorld :=
  { listing := fun _ => .ok [[], [], [], [], []],
    pageDoc := fun _ => .error () }

def rndW5 : Nat → Nat := fun _ => 0

/-- The condition under which the name source that `extractName` ends up
using has nonempty text: the first h1's stripped text if an h1 exists, else
the stripped title string if one is used; trivially true when no h1 and no
title exist (the sentinel is substituted then). -/
def nameSourceOk (doc : HtmlDoc) : Bool :=
  match firstNamed doc "h1" with
  | some e => decide (entryTextStrip doc e.path ≠ "")
  | none =>
    match firstNamed doc "title" with
    | some t =>
      match tagString doc doc.length t.path with
      | some s => decide (pyStrip s ≠ "")
      | none => true
    | none => true

/-! ## Helper lemmas -/

theorem mem_dedupKeysAux (l : List String) :
    ∀ (seen : List String) (x : String),
      x ∈ dedupKeysAux seen l ↔ (x ∈ l ∧ x ∉ seen) := by
  induction l with
  | nil =>
    intro seen x
    simp [dedupKeysAux]
  | cons y ys ih =>
    intro seen x
    by_cases hy : y ∈ seen
    · simp only [dedupKeysAux, if_pos hy]
      rw [ih]
      constructor
      · rintro ⟨h1, h2⟩
        exact ⟨List.mem_cons_of_mem _ h1, h2⟩
      · rintro ⟨h1, h2⟩
        rcases List.mem_cons.mp h1 with rfl | hm
        · exact absurd hy h2
        · exact ⟨hm, h2⟩
    · simp only [dedupKeysAux, if_neg hy]
      constructor
      · intro hx
        rcases List.mem_cons.mp hx with rfl | hm
        · exact ⟨List.mem_cons_self _ _, hy⟩
        · rcases (ih (y :: seen) x).mp hm with ⟨h1, h2⟩
          exact ⟨List.mem_cons_of_mem _ h1, fun hc => h2 (List.mem_cons_of_mem _ hc)⟩
      · rintro ⟨h1, h2⟩
        by_cases hxy : x = y
        · subst hxy
          exact List.mem_cons_self _ _
        · have hm : x ∈ ys := by
            rcases List.mem_cons.mp h1 with h | h
            · exact absurd h hxy
            · exact h
          refine List.mem_cons_of_mem _ ((ih (y :: seen) x).mpr ⟨hm, ?_⟩)
          intro hc
          rcases List.mem_cons.mp hc with h | h
          · exact hxy h
          · exact h2 h

theorem nodup_dedupKeysAux (l : List String) :
    ∀ seen : List String, (dedupKeysAux seen l).Nodup := by
  induction l with
  | nil =>
    intro seen
    simp [dedupKeysAux]
  | cons y ys ih =>
    intro seen
    by_cases hy : y ∈ seen
    · simp only [dedupKeysAux, if_pos hy]
      exact ih seen
    · simp only [dedupKeysAux, if_neg hy]
      refine List.nodup_cons.mpr ⟨?_, ih (y :: seen)⟩
      intro hc
      exact ((mem_dedupKeysAux ys (y :: seen) y).mp hc).2 (List.mem_cons_self _ _)

theorem pairwise_firstIdx_dedupKeysAux (l : List String) :
    ∀ seen : List String,
      (dedupKeysAux seen l).Pairwise (fun a b => firstIdx l a < firstIdx l b) := by
  induction l with
  | nil =>
    intro seen
    simp [dedupKeysAux]
  | cons y ys ih =>
    intro seen
    by_cases hy : y ∈ seen
    · simp only [dedupKeysAux, if_pos hy]
      refine (ih seen).imp_of_mem ?_
      intro a b ha hb hab
      have hay : a ≠ y := fun h => ((mem_dedupKeysAux ys seen a).mp ha).2 (h ▸ hy)
      have hby : b ≠ y := fun h => ((mem_dedupKeysAux ys seen b).mp hb).2 (h ▸ hy)
      simp only [firstIdx]
      rw [if_neg (fun h => hay h.symm), if_neg (fun h => hby h.symm)]
      omega
    · simp only [dedupKeysAux, if_neg hy]
      refine List.pairwise_cons.mpr ⟨?_, ?_⟩
      · intro b hb
        have hby : b ≠ y :=
          fun h => ((mem_dedupKeysAux ys (y :: seen) b).mp hb).2
            (h ▸ List.mem_cons_self y seen)
        have e1 : firstIdx (y :: ys) y = 0 := by
          simp [firstIdx]
        have e2 : firstIdx (y :: ys) b = firstIdx ys b + 1 := by
          simp only [firstIdx]
          rw [if_neg (fun h => hby h.symm)]
        rw [e1, e2]
        omega
      · refine (ih (y :: seen)).imp_of_mem ?_
        intro a b ha hb hab
        have hay : a ≠ y :=
          fun h => ((mem_dedupKeysAux ys (y :: seen) a).mp ha).2
            (h ▸ List.mem_cons_self y seen)
        have hby : b ≠ y :=
          fun h => ((mem_dedupKeysAux ys (y :: seen) b).mp hb).2
            (h ▸ List.mem_cons_self y seen)
        simp only [firstIdx]
        rw [if_neg (fun h => hay h.symm), if_neg (fun h => hby h.symm)]
        omega

theorem mem_dedupKeys (l : List String) (x : String) :
    x ∈ dedupKeys l ↔ x ∈ l := by
  unfold dedupKeys
  rw [mem_dedupKeysAux]
  simp

theorem nodup_buildAboutImages (imageUrl : Option String) (collected : List String) :
    (buildAboutImages imageUrl collected).Nodup := by
  have hd : (dedupKeys (collected.filter (fun s => !(s == "")))).Nodup :=
    nodup_dedupKeysAux (collected.filter (fun s => !(s == ""))) []
  cases imageUrl with
  | none =>
    simp only [buildAboutImages]
    exact hd
  | some u =>
    simp only [buildAboutImages]
    by_cases hu : u = ""
    · rw [if_pos hu]
      exact hd
    · rw [if_neg hu]
      by_cases hmem : u ∈ dedupKeys (collected.filter (fun s => !(s == "")))
      · rw [if_pos hmem]
        exact hd
      · rw [if_neg hmem]
        exact List.nodup_cons.mpr ⟨hmem, hd⟩

theorem buildAboutImages_mem_head (u : String) (hu : u ≠ "") (collected : List String) :
    u ∈ buildAboutImages (some u) collected ∧
    (u ∉ dedupKeys (collected.filter (fun s => !(s == ""))) →
      (buildAboutImages (some u) collected).head? = some u) := by
  simp only [buildAboutImages]
  by_cases hmem : u ∈ dedupKeys (collected.filter (fun s => !(s == "")))
  · rw [if_neg hu, if_pos hmem]
    exact ⟨hmem, fun hc => absurd hmem hc⟩
  · rw [if_neg hu, if_neg hmem]
    exact ⟨List.mem_cons_self _ _, fun _ => rfl⟩

theorem pyOrStr_ne (a : Option String) (d : String) (hd : d ≠ "") :
    pyOrStr a d ≠ "" := by
  cases a with
  | none => simpa [pyOrStr] using hd
  | some s =>
    by_cases hs : s = "" <;> simp [pyOrStr, hs, hd]

theorem append_ne_empty_left (a b : String) (ha : a.length ≠ 0) : a ++ b ≠ "" := by
  intro h
  have h5 := congrArg String.length h
  rw [String.length_append] at h5
  have hz : ("" : String).length = 0 := rfl
  rw [hz] at h5
  omega

theorem urljoin_base_ne_empty (s : String) (hs : s ≠ "") : urljoin BASE_URL s ≠ "" := by
  unfold urljoin
  split_ifs
  all_goals
    first
    | exact hs
    | exact append_ne_empty_left "https:" s (by decide)
    | exact append_ne_empty_left BASE_URL s (by decide)
    | exact (by decide : BASE_URL ≠ "")
    | exact append_ne_empty_left (BASE_URL ++ "/") s (by decide)

theorem extractImage_ne_empty (doc : HtmlDoc) (u : String)
    (h : extractImage doc = some u) : u ≠ "" := by
  have h2 : absolute_url (rawImageUrl doc) = some u := h
  cases hr : rawImageUrl doc with
  | none =>
    rw [hr] at h2
    simp only [absolute_url] at h2
    exact Option.noConfusion h2
  | some s =>
    rw [hr] at h2
    simp only [absolute_url] at h2
    by_cases hs : s = ""
    · rw [if_pos hs] at h2
      cases h2
    · rw [if_neg hs] at h2
      injection h2 with h3
      exact h3 ▸ urljoin_base_ne_empty s hs

theorem get_ok_parts (doc : HtmlDoc) (url : String) (rec : CheeseRecord)
    (h : get_cheese_details doc url = .ok rec) :
    rec.image_url = extractImage doc ∧
    rec.about_images = buildAboutImages (extractImage doc) (extractAbout doc).2 ∧
    rec.about = pyOrStr (extractAbout doc).1 "No description available." ∧
    rec.fields = extractFields doc ∧
    ∃ n, extractName doc = .ok n ∧ rec.name = n := by
  unfold get_cheese_details at h
  cases hE : extractName doc with
  | error e =>
    rw [hE] at h
    cases h
  | ok n =>
    rw [hE] at h
    cases h
    exact ⟨rfl, rfl, rfl, rfl, n, rfl, rfl⟩

theorem tickTrace_start_le {cfg : BotConfig} (tr : TickTrace cfg) :
    ∀ a b : Nat, a ≤ b → tr.start a ≤ tr.start b := by
  intro a b hab
  induction hab with
  | refl => exact Nat.le_refl _
  | step h ih => exact Nat.le_trans ih (Nat.le_of_lt (tr.mono _))

/-! ## The claims -/

/-- C1: the claim says a "Flavor"-labelled value populates the `flavour`
field just as a "Flavour"-labelled one does.  The code finds the value for
the "Flavor" label (first conjunct), but the later `"Flavour"` entry of
`field_mapping` re-initialises `data['flavour']` to `None` and, finding no
"Flavour"-labelled element, leaves it `None` (second conjunct), contradicting
the claim and the code's own "# Handle both spellings" comment. -/
theorem c1_flavor_value_lost :
    fieldValue docC1 "Flavor" = some "Mild" ∧
    (get_cheese_details docC1 "http://x").toOption.map (fun r => r.fields.flavour) =
      some none :=
  ⟨rfl, rfl⟩

/-- C2 (counterexample): a document whose h1 is present but has only
whitespace text yields a record whose `name` is the empty string, so the
claimed invariant "name is never empty" fails as stated. -/
theorem c2_name_counterexample :
    (get_cheese_details docC2 "u").toOption.map (fun r => r.name) = some "" := rfl

/-- C2 (amended): `about` is always a non-empty string; `name` is non-empty
whenever the used name source (the first h1's stripped text, else the
stripped title string, with the sentinel covering total absence) is
non-empty. -/
theorem c2_nonempty_amended (doc : HtmlDoc) (url : String) (rec : CheeseRecord)
    (h : get_cheese_details doc url = .ok rec) :
    rec.about ≠ "" ∧ (nameSourceOk doc = true → rec.name ≠ "") := by
  obtain ⟨-, -, hab, -, n, hn, hrn⟩ := get_ok_parts doc url rec h
  constructor
  · rw [hab]
    exact pyOrStr_ne _ _ (by decide)
  · intro hns
    rw [hrn]
    cases hH : firstNamed doc "h1" with
    | some e =>
      simp only [extractName, hH] at hn
      simp only [nameSourceOk, hH] at hns
      injection hn with hn2
      rw [← hn2]
      exact of_decide_eq_true hns
    | none =>
      cases hT : firstNamed doc "title" with
      | some t =>
        cases hS : tagString doc doc.length t.path with
        | some s =>
          simp only [extractName, hH, hT, hS] at hn
          simp only [nameSourceOk, hH, hT, hS] at hns
          injection hn with hn2
          rw [← hn2]
          exact of_decide_eq_true hns
        | none =>
          simp only [extractName, hH, hT, hS] at hn
          exact Except.noConfusion hn
      | none =>
        simp only [extractName, hH, hT] at hn
        injection hn with hn2
        rw [← hn2]
        decide

/-- C2 (witness): amended theorem applied to `<h1>Edam</h1>`. -/
theorem c2_nonempty_amended_witness : recW2.about ≠ "" ∧ recW2.name ≠ "" := by
  have h := c2_nonempty_amended docW2 "u" recW2 rfl
  exact ⟨h.1, h.2 (by decide)⟩

/-- C4: the claim says the result is the duration to the next future
occurrence and is never negative.  With `cheese_time = "07:00"` (PH) and the
current UTC time 23:01:00 (82860 s past UTC midnight, i.e. 07:01 PH the next
calendar day), the code combines the UTC date with the PH wall-clock time and
bumps once, returning -60 seconds — negative, where the claim requires
86340 s (approximately 23h59m). -/
theorem c4_negative_duration :
    (seconds_until_next_run cfgC4 82860).toOption = some (some (-60)) ∧
    (-60 : Int) < 0 :=
  ⟨rfl, by decide⟩

/-- C6 (counterexample): the og:image URL `/b.jpg` is the primary image, yet
it is not the first element of `about_images` — `/a.jpg`, collected first in
the about section, is — because the code only prepends the primary image
when it is not already present. -/
theorem c6_head_counterexample :
    (get_cheese_details docC6 "u").toOption.map
        (fun r => (r.image_url, r.about_images.head?)) =
      some (some "https://www.cheese.com/b.jpg", some "https://www.cheese.com/a.jpg") ∧
    ("https://www.cheese.com/a.jpg" : String) ≠ "https://www.cheese.com/b.jpg" :=
  ⟨rfl, by decide⟩

/-- C6 (amended): when `image_url` is present it always occurs in
`about_images`, and it is the first element whenever it was not already among
the deduplicated collected about-section images; otherwise it stays at its
collected position. -/
theorem c6_image_member_amended (doc : HtmlDoc) (url : String) (rec : CheeseRecord)
    (u : String) (h : get_cheese_details doc url = .ok rec)
    (hu : rec.image_url = some u) :
    u ∈ rec.about_images ∧
    (u ∉ dedupKeys (((extractAbout doc).2).filter (fun s => !(s == ""))) →
      rec.about_images.head? = some u) := by
  obtain ⟨hi, hbi, -, -, -⟩ := get_ok_parts doc url rec h
  have hiu : extractImage doc = some u := by
    rw [← hi]
    exact hu
  have hne : u ≠ "" := extractImage_ne_empty doc u hiu
  rw [hbi, hiu]
  exact buildAboutImages_mem_head u hne (extractAbout doc).2

/-- C6 (witness): on the counterexample document the primary image is still
a member of `about_images`. -/
theorem c6_image_member_witness :
    ("https://www.cheese.com/b.jpg" : String) ∈ recC6.about_images :=
  (c6_image_member_amended docC6 "u" recC6 "https://www.cheese.com/b.jpg" rfl rfl).1

/-- C7: for every input document the returned `about_images` has no two equal
URL strings, and the deduplication used (`list(dict.fromkeys(...))`) is
stable: it keeps exactly the elements of its input, ordered by (and at) their
first occurrences. -/
theorem c7_nodup_stable (doc : HtmlDoc) (url : String) (rec : CheeseRecord)
    (l : List String) (x : String) (h : get_cheese_details doc url = .ok rec) :
    rec.about_images.Nodup ∧ (x ∈ dedupKeys l ↔ x ∈ l) ∧
    (dedupKeys l).Pairwise (fun a b => firstIdx l a < firstIdx l b) := by
  obtain ⟨-, hbi, -, -, -⟩ := get_ok_parts doc url rec h
  refine ⟨?_, mem_dedupKeys l x, pairwise_firstIdx_dedupKeysAux l []⟩
  rw [hbi]
  exact nodup_buildAboutImages _ _

/-- C7 (witness): the theorem at the empty document and the list
`["a", "b", "a"]`. -/
theorem c7_nodup_stable_witness :
    recEmpty.about_images.Nodup ∧
    (("a" : String) ∈ dedupKeys ["a", "b", "a"] ↔
      ("a" : String) ∈ (["a", "b", "a"] : List String)) ∧
    (dedupKeys ["a", "b", "a"]).Pairwise
      (fun a b => firstIdx ["a", "b", "a"] a < firstIdx ["a", "b", "a"] b) :=
  c7_nodup_stable docEmpty "u" recEmpty ["a", "b", "a"] "a" rfl

/-- C8: if the document's first `meta property="og:image"` tag has a nonempty
`content` URL, the returned `image_url` is exactly that URL resolved against
the fixed base origin — regardless of any thumbnail or other images. -/
theorem c8_og_image (doc : HtmlDoc) (url : String) (rec : CheeseRecord)
    (mt : DomEntry) (c : String) (h : get_cheese_details doc url = .ok rec)
    (hog : findOgMeta doc = some mt) (hc : mt.attr "content" = some c)
    (hcne : c ≠ "") :
    rec.image_url = absolute_url (some c) ∧
    rec.image_url = some (urljoin BASE_URL c) := by
  obtain ⟨hi, -, -, -, -⟩ := get_ok_parts doc url rec h
  have hraw : rawImageUrl doc = some c := by
    simp only [rawImageUrl, hog, hc]
    rw [if_neg hcne]
  constructor
  · rw [hi]
    unfold extractImage
    rw [hraw]
  · rw [hi]
    unfold extractImage
    rw [hraw]
    simp only [absolute_url]
    rw [if_neg hcne]

/-- C8 (witness): the theorem at the og:image fixture. -/
theorem c8_og_image_witness :
    recC8.image_url = some (urljoin BASE_URL "/img/ch.jpg") :=
  (c8_og_image docC8 "u" recC8
    ⟨[0], .elem "meta" [("property", "og:image"), ("content", "/img/ch.jpg")]⟩
    "/img/ch.jpg" rfl rfl rfl (by decide)).2

/-- C9: `seconds_until_next_run` returns `None` when no `cheese_time` is
stored, and likewise — without raising — whenever the stored string does not
consist of two ':'-separated integers. -/
theorem c9_malformed_time (cfg : BotConfig) (now : Nat) :
    (cfg.cheese_time = none → seconds_until_next_run cfg now = .ok none) ∧
    ∀ s, cfg.cheese_time = some s → parseHM s = none →
      seconds_until_next_run cfg now = .ok none := by
  constructor
  · intro h
    simp only [seconds_until_next_run, h]
  · intro s h1 h2
    simp only [seconds_until_next_run, h1, h2]

/-- C9 (witness): the theorem at the malformed stored time `"ab:cd"`. -/
theorem c9_malformed_time_witness :
    seconds_until_next_run cfgC9 0 = .ok none :=
  (c9_malformed_time cfgC9 0).2 "ab:cd" rfl (by decide)

/-- The attempt loop performs exactly one attempt per iteration and exhausts
its budget when every letter's listing page fetches fine but yields zero
valid cheese links. -/
theorem get_random_cheese_aux_exhausts (w : ScrapeWorld) (rnd : Nat → Nat)
    (hw : ∀ c, ∃ pg, w.listing c = .ok pg ∧ validLinksOf pg = []) :
    ∀ (fuel : Nat) (attempted : List Char) (k used : Nat),
      get_random_cheese_aux w rnd fuel attempted k used = (.error (), used + fuel) := by
  intro fuel
  induction fuel with
  | zero =>
    intro attempted k used
    simp [get_random_cheese_aux]
  | succ n ih =>
    intro attempted k used
    obtain ⟨pg, hok, hval⟩ := hw (nextLetter attempted (rnd k))
    simp only [get_random_cheese_aux, hok, hval, List.isEmpty_nil, if_true]
    rw [ih (nextLetter attempted (rnd k) :: resetAttempted attempted) (k + 1) (used + 1)]
    have harith : used + 1 + n = used + (n + 1) := by omega
    rw [harith]

/-- C5: if every fetched alphabetical listing page yields zero valid cheese
links, `get_random_cheese` raises after exactly `max_retries` attempts
(15 by default) — counted across letters, not per letter — and never returns
a record. -/
theorem c5_exhausted (w : ScrapeWorld) (rnd : Nat → Nat) (n : Nat)
    (hw : ∀ c, ∃ pg, w.listing c = .ok pg ∧ validLinksOf pg = []) :
    get_random_cheese w rnd n = (.error (), n) := by
  unfold get_random_cheese
  rw [get_random_cheese_aux_exhausts w rnd hw n [] 0 0]
  simp

/-- C5 (witness): the theorem at the all-empty listing world with the default
budget of 15. -/
theorem c5_exhausted_witness :
    get_random_cheese wW5 rndW5 15 = (.error (), 15) :=
  c5_exhausted wW5 rndW5 15 (fun _ => ⟨[[], [], [], [], []], rfl, rfl⟩)

/-- The accumulator invariant of the `get_multiple_random_cheeses` loop. -/
theorem get_multiple_aux_invariant (fetch : Nat → Except Unit CheeseRecord) (count : Nat) :
    ∀ (fuel k : Nat) (acc : List CheeseRecord),
      acc.length ≤ count → (acc.map (fun r => r.name)).Nodup →
      (get_multiple_aux fetch count fuel k acc).length ≤ count ∧
      ((get_multiple_aux fetch count fuel k acc).map (fun r => r.name)).Nodup := by
  intro fuel
  induction fuel with
  | zero =>
    intro k acc hlen hnd
    simpa [get_multiple_aux] using ⟨hlen, hnd⟩
  | succ n ih =>
    intro k acc hlen hnd
    by_cases hc : count ≤ acc.length
    · simp only [get_multiple_aux, if_pos hc]
      exact ⟨hlen, hnd⟩
    · cases hf : fetch k with
      | error e =>
        simp only [get_multiple_aux, if_neg hc, hf]
        exact ih (k + 1) acc hlen hnd
      | ok c =>
        by_cases hdup : acc.any (fun x => x.name == c.name) = true
        · simp only [get_multiple_aux, if_neg hc, hf, if_pos hdup]
          exact ih (k + 1) acc hlen hnd
        · simp only [get_multiple_aux, if_neg hc, hf, if_neg hdup]
          refine ih (k + 1) (acc ++ [c]) ?_ ?_
          · rw [List.length_append]
            simp only [List.length_singleton]
            omega
          · rw [List.map_append, List.nodup_append]
            refine ⟨hnd, List.nodup_singleton _, ?_⟩
            intro a ha hb
            simp only [List.map_cons, List.map_nil, List.mem_singleton] at hb
            subst hb
            rcases List.mem_map.mp ha with ⟨x, hx, hxe⟩
            apply hdup
            rw [List.any_eq_true]
            exact ⟨x, hx, beq_iff_eq.mpr hxe⟩

/-- C10: for every fetch oracle and every count, the list returned by
`get_multiple_random_cheeses` has at most `count` records and no two of its
records share a name — failures of the underlying fetch are swallowed, so
the list may be shorter, but both bounds always hold. -/
theorem c10_multiple_bounds (fetch : Nat → Except Unit CheeseRecord) (count : Nat) :
    (get_multiple_random_cheeses fetch count).length ≤ count ∧
    ((get_multiple_random_cheeses fetch count).map (fun r => r.name)).Nodup := by
  unfold get_multiple_random_cheeses
  exact get_multiple_aux_invariant fetch count (count * 3) 0 []
    (by simp) (by simp)

/-- C3: with channel and time configured (and the stored time parsing as
`(h, m)`), (i) a tick whose current PH hour and minute equal the configured
ones dispatches, and (ii) no two distinct ticks both dispatch within the same
minute: a dispatching tick sleeps 65 seconds before returning, and
invocations never overlap, so every later tick starts in a strictly later
minute. -/
theorem c3_single_dispatch (cfg : BotConfig) (tr : TickTrace cfg) (i j : Nat)
    (ch : Nat) (s : String) (h m : Int)
    (hch : cfg.cheese_channel = some ch) (hs : cfg.cheese_time = some s)
    (hp : parseHM s = some (h, m)) :
    (((((tr.start i + 8 * 3600) / 3600) % 24 : Nat) : Int) = h ∧
       ((((tr.start i + 8 * 3600) / 60) % 60 : Nat) : Int) = m →
       tickFires cfg (tr.start i) = true) ∧
    (i < j → tickFires cfg (tr.start i) = true → tickFires cfg (tr.start j) = true →
      tr.start i / 60 ≠ tr.start j / 60) := by
  constructor
  · intro hmatch
    simp only [tickFires, hch, hs, hp]
    exact decide_eq_true hmatch
  · intro hij hfi hfj
    have h65 : tr.start i + 65 ≤ tr.start (i + 1) := tr.firedSleep i hfi
    have hle : tr.start (i + 1) ≤ tr.start j := tickTrace_start_le tr (i + 1) j hij
    have hij2 : tr.start i + 65 ≤ tr.start j := le_trans h65 hle
    omega

/-- C3 (witness): with `cheese_time = "09:00"`, a trace of daily 09:00:00 PH
invocations dispatches at tick 0, and tick 1 is in a different minute. -/
theorem c3_single_dispatch_witness :
    tickFires cfgW3 (trW3.start 0) = true ∧ trW3.start 0 / 60 ≠ trW3.start 1 / 60 := by
  constructor
  · exact (c3_single_dispatch cfgW3 trW3 0 1 1 "09:00" 9 0 rfl rfl (by decide)).1
      ⟨by decide, by decide⟩
  · exact (c3_single_dispatch cfgW3 trW3 0 1 1 "09:00" 9 0 rfl rfl (by decide)).2
      (by omega) (by decide) (by decide)
